import Mathlib

/-!
Verification of the semester-recommendation engine and its client-side
helpers (course conflict checking, standing calculation, time grouping and
schedule storage) of the university course management application.

The TypeScript utilities of `app/src/lib/utils.ts`, the page handlers of
`Classes.tsx` / `Index.tsx` and `app/src/lib/scheduleStorage.ts` are embedded
shallowly below: JavaScript strings become `String` values whose character
lists are manipulated directly (split, trim, lower-casing and the regular
expression scan are modelled character by character, matching the ECMAScript
semantics of `String.prototype.split`, `trim`, `toLowerCase`, `includes` and
`parseInt`), optional fields become `Option String`, and JavaScript falsiness
of strings (undefined, null, empty) and numbers (undefined, null, 0) is made
explicit.
-/

namespace UniApp

/-- A course as consumed by `checkTimeConflict`: only the `days` and `time`
fields matter; both are optional strings in the source signature. -/
structure Course where
  days : Option String
  time : Option String
deriving DecidableEq, Repr

/-- JavaScript falsiness of an optional string: `undefined`, `null` and the
empty string are falsy (the source guards `if (!course1.days) ...`). -/
def strFalsy : Option String → Bool
  | none => true
  | some s => s.toList.isEmpty

/-- JavaScript falsiness of an optional number restricted to the values the
time parser can produce: `undefined`, `null` and `0` are falsy (the source
guards `if (!start1 || ...)`). -/
def numFalsy : Option Nat → Bool
  | none => true
  | some n => n == 0

/-- Embeds `str.split(sep)` of ECMAScript for a single-character separator: the list
of (possibly empty) chunks between occurrences of `sep`; never empty, and
`"".split(sep)` is `[""]`. -/
def splitOn (sep : Char) : List Char → List (List Char)
  | [] => [[]]
  | c :: cs =>
    if c == sep then
      [] :: splitOn sep cs
    else
      match splitOn sep cs with
      | [] => [[c]]
      | t :: ts => (c :: t) :: ts

/-- Embeds `str.trim()`: drop leading and trailing whitespace. -/
def jsTrim (l : List Char) : List Char :=
  ((l.dropWhile Char.isWhitespace).reverse.dropWhile Char.isWhitespace).reverse

/-- One step of the regular-expression scan of `/(\d{2}):(\d{2})/`: try to
match two digits, a colon and two digits at the head of the character list. -/
def matchHHMMAt : List Char → Option (Nat × Nat)
  | d1 :: d2 :: c :: d3 :: d4 :: _ =>
    if d1.isDigit && d2.isDigit && c == ':' && d3.isDigit && d4.isDigit then
      some ((d1.toNat - 48) * 10 + (d2.toNat - 48),
            (d3.toNat - 48) * 10 + (d4.toNat - 48))
    else
      none
  | _ => none

/-- First match of `/(\d{2}):(\d{2})/` over a character list, scanning left to
right as the JavaScript regular-expression engine does. -/
def findHHMM : List Char → Option (Nat × Nat)
  | [] => none
  | c :: rest =>
    match matchHHMMAt (c :: rest) with
    | some r => some r
    | none => findHHMM rest

/-- Embeds `parseTimeToMinutes` of `utils.ts`: match `/(\d{2}):(\d{2})/` against the
string and return `hours * 60 + minutes`, or `none` (null) when the pattern
does not occur. -/
def parseTimeToMinutes (timeStr : List Char) : Option Nat :=
  (findHHMM timeStr).map (fun p => p.1 * 60 + p.2)

/-- The day list of a course: `days.split(",").map(d => d.trim())`. -/
def daySet (days : List Char) : List (List Char) :=
  (splitOn ',' days).map jsTrim

/-- Embeds `days1.some(day => days2.includes(day))` of the source (`Array.includes`
on an array of strings is string equality). -/
def hasCommonDay (d1 d2 : List Char) : Bool :=
  (daySet d1).any (fun d => (daySet d2).contains d)

/-- The pair `(start, end)` obtained by `time.split("-").map(parseTimeToMinutes)`
followed by the destructuring `[start, end] = ...`; a missing element of the
split result (undefined) and a failed parse (null) both become `none`. -/
def courseEndpoints (time : List Char) : Option Nat × Option Nat :=
  let parts := (splitOn '-' time).map parseTimeToMinutes
  ((parts[0]?).join, (parts[1]?).join)

/-- The tail of `checkTimeConflict`: the falsy guard over the four parsed
endpoints followed by the half-open interval intersection test. -/
def conflictTimes (p q : Option Nat × Option Nat) : Bool :=
  if numFalsy p.1 || numFalsy p.2 || numFalsy q.1 || numFalsy q.2 then
    false
  else
    decide (¬ (p.2.getD 0 ≤ q.1.getD 0 ∨ q.2.getD 0 ≤ p.1.getD 0))

/-- Embeds `checkTimeConflict` of `utils.ts` (the same function is repeated verbatim
inside `Classes.tsx` and `Index.tsx`): false when any of the four fields is
falsy, false when the two day lists share no entry, false when any parsed
endpoint is falsy, and otherwise the half-open interval intersection test. -/
def checkTimeConflict (c1 c2 : Course) : Bool :=
  if strFalsy c1.days || strFalsy c2.days || strFalsy c1.time || strFalsy c2.time then
    false
  else if ! hasCommonDay (c1.days.getD "").toList (c2.days.getD "").toList then
    false
  else
    conflictTimes (courseEndpoints (c1.time.getD "").toList)
      (courseEndpoints (c2.time.getD "").toList)

/-- Embeds `getStudentStanding` of `utils.ts`: `N/A` when the credit value is
undefined or null, otherwise the thresholded standing. Credits are JavaScript
numbers, embedded as rationals. -/
def getStudentStanding : Option ℚ → String
  | none => "N/A"
  | some credits =>
    if credits < 30 then "Freshman"
    else if credits < 60 then "Sophomore"
    else if credits < 90 then "Junior"
    else "Senior"

/-- Helper for `digitsPrefixVal`: accumulate digits, stopping at the first
non-digit character. -/
def digitsPrefixValGo (acc : Nat) : List Char → Nat
  | [] => acc
  | c :: cs => if c.isDigit then digitsPrefixValGo (acc * 10 + (c.toNat - 48)) cs else acc

/-- The numeric value of the longest digit prefix of a character list, `none`
when the list does not start with a digit. -/
def digitsPrefixVal : List Char → Option Nat
  | [] => none
  | c :: cs => if c.isDigit then some (digitsPrefixValGo (c.toNat - 48) cs) else none

/-- Embeds `parseInt(str, 10)` of ECMAScript restricted to radix 10: skip leading
whitespace, read an optional sign and then the longest digit prefix, ignoring
any trailing characters; `none` models NaN (no digits found). -/
def parseIntJS (l : List Char) : Option Int :=
  let t := l.dropWhile Char.isWhitespace
  match t with
  | '-' :: rest => (digitsPrefixVal rest).map (fun n => -(n : Int))
  | '+' :: rest => (digitsPrefixVal rest).map (fun n => (n : Int))
  | _ => (digitsPrefixVal t).map (fun n => (n : Int))

/-- Embeds `parseCourseTime` of `utils.ts`: `none` models `Number.POSITIVE_INFINITY`
(the value returned when the string is missing or cannot be parsed); otherwise
the start of the range in minutes since midnight. The source takes the part
before the first dash, trims it, splits it at colons into hours and minutes
(each defaulting to the string `0` when absent) and applies `parseInt`. -/
def parseCourseTime (timeRange : Option String) : Option Int :=
  match timeRange with
  | none => none
  | some tr =>
    if tr.toList.isEmpty then none
    else
      let start := ((splitOn '-' tr.toList)[0]?).getD []
      if start.isEmpty then none
      else
        let parts := splitOn ':' (jsTrim start)
        let hours := (parts[0]?).getD ['0']
        let minutes := (parts[1]?).getD ['0']
        match parseIntJS hours, parseIntJS minutes with
        | some h, some m => some (h * 60 + m)
        | _, _ => none

/-- Embeds `str.includes(sub)`: `sub` occurs as a contiguous subsequence of `str`. -/
def beginsWith : List Char → List Char → Bool
  | _, [] => true
  | [], _ :: _ => false
  | c :: cs, d :: ds => c == d && beginsWith cs ds

/-- Scan for `beginsWith` at every position, as `String.prototype.includes`. -/
def containsSeq : List Char → List Char → Bool
  | [], needle => needle.isEmpty
  | c :: cs, needle => beginsWith (c :: cs) needle || containsSeq cs needle

/-- Embeds `isMWFCourse` of `utils.ts`: the lower-cased day string mentions monday,
wednesday or friday. -/
def isMWFCourse (days : Option String) : Bool :=
  if strFalsy days then false
  else
    let nd := (days.getD "").toList.map Char.toLower
    containsSeq nd "monday".toList || containsSeq nd "wednesday".toList ||
      containsSeq nd "friday".toList

/-- Embeds `isTThCourse` of `utils.ts`: the lower-cased day string mentions tuesday
or thursday. -/
def isTThCourse (days : Option String) : Bool :=
  if strFalsy days then false
  else
    let nd := (days.getD "").toList.map Char.toLower
    containsSeq nd "tuesday".toList || containsSeq nd "thursday".toList

/-- Order on parsed course times as used by the comparator
`(a, b) => parseCourseTime(a.time) - parseCourseTime(b.time)`: finite values
by magnitude, with the unparseable value (positive infinity) above every
finite value. -/
def timeKeyLE : Option Int → Option Int → Bool
  | _, none => true
  | none, some _ => false
  | some x, some y => decide (x ≤ y)

/-- The comparator relation on courses used by the two sorts inside
`groupCoursesByDays`. -/
def byCourseTime (a b : Course) : Prop :=
  timeKeyLE (parseCourseTime a.time) (parseCourseTime b.time) = true

instance : DecidableRel byCourseTime := fun a b =>
  inferInstanceAs (Decidable (_ = true))

theorem timeKeyLE_total (a b : Option Int) :
    timeKeyLE a b = true ∨ timeKeyLE b a = true := by
  rcases a with _ | x <;> rcases b with _ | y <;> simp [timeKeyLE]
  exact le_total x y

theorem timeKeyLE_trans (a b c : Option Int) (h1 : timeKeyLE a b = true)
    (h2 : timeKeyLE b c = true) : timeKeyLE a c = true := by
  rcases a with _ | x <;> rcases b with _ | y <;> rcases c with _ | z <;>
    simp_all [timeKeyLE]
  omega

instance : IsTotal Course byCourseTime where
  total a b := timeKeyLE_total _ _

instance : IsTrans Course byCourseTime where
  trans a b c := timeKeyLE_trans _ _ _

/-- Embeds `groupCoursesByDays` of `utils.ts`: filter the MWF and TTh courses and
sort each group by parsed course time (a stable comparison sort, embedded as
insertion sort over the comparator order). -/
def groupCoursesByDays (courses : List Course) : List Course × List Course :=
  (List.insertionSort byCourseTime (courses.filter (fun c => isMWFCourse c.days)),
   List.insertionSort byCourseTime (courses.filter (fun c => isTThCourse c.days)))

/-- A catalog course row as fetched by `Classes.tsx` / `Index.tsx`: the `id`
used by the selection state plus the fields the conflict check reads. -/
structure CatCourse where
  id : String
  days : String
  time : String
deriving DecidableEq, Repr

/-- The view of a catalog course taken by `checkTimeConflict`. -/
def CatCourse.toCourse (c : CatCourse) : Course :=
  ⟨some c.days, some c.time⟩

/-- Embeds `courses.filter((c) => selected.has(c.id))` of the page handlers: the
catalog rows whose identifier is currently selected. -/
def selectedCourseList (courses : List CatCourse) (selected : List String) : List CatCourse :=
  courses.filter (fun c => selected.contains c.id)

/-- Embeds `handleCourseSelect` of `Classes.tsx` / `Index.tsx`, restricted to its
effect on the selection state (a `Set` of course identifiers, embedded as a
duplicate-free list in insertion order): an unknown identifier is ignored, a
selected identifier is deselected, and a new identifier is added only when the
course does not conflict with any currently selected catalog row. -/
def handleCourseSelect (courses : List CatCourse) (selected : List String)
    (courseId : String) : List String :=
  match courses.find? (fun c => c.id == courseId) with
  | none => selected
  | some course =>
    if selected.contains courseId then
      selected.erase courseId
    else if (selectedCourseList courses selected).any
        (fun sc => checkTimeConflict course.toCourse sc.toCourse) then
      selected
    else
      selected ++ [courseId]

/-- A saved draft schedule as stored by `scheduleStorage.ts`. -/
structure SavedSchedule where
  id : String
  name : String
  courseIds : List String
  createdAt : String
deriving DecidableEq, Repr

/-- Embeds `getSavedSchedules` of `scheduleStorage.ts`, embedded over an explicit
storage state: reading back the stored list returns it unchanged (the
source round-trips the list through JSON in `localStorage`). -/
def getSavedSchedules (stored : List SavedSchedule) : List SavedSchedule :=
  stored

/-- Embeds `deleteSchedule` of `scheduleStorage.ts`: replace the stored list by
`existing.filter((s) => s.id !== scheduleId)`. -/
def deleteSchedule (scheduleId : String) (stored : List SavedSchedule) :
    List SavedSchedule :=
  (getSavedSchedules stored).filter (fun s => ! (s.id == scheduleId))

/-- A time-of-day preference as requested from the recommendation engine. -/
inductive TimePref
  | morning
  | afternoon
  | evening
  | any
deriving DecidableEq, Repr

/-- A time-of-day bucket as produced by the Time-Window Classifier. -/
inductive TimeBucket
  | morning
  | afternoon
  | evening
  | unknown
deriving DecidableEq, Repr

/-- Modelled from the spec: `classify(meeting_window)` of the Time-Window
Classifier, whose scheduler-side implementation is not among the shipped
sources; it buckets a section by its parsed start time (before noon morning,
noon to 17:00 afternoon, after 17:00 evening) and returns `unknown` when the
time string cannot be parsed. -/
def classify (c : Course) : TimeBucket :=
  match parseCourseTime c.time with
  | none => TimeBucket.unknown
  | some t =>
    if t < 720 then TimeBucket.morning
    else if t ≤ 1020 then TimeBucket.afternoon
    else TimeBucket.evening

/-- Modelled from the spec: a section matches a requested preference when the
preference is `any` or the classifier bucket equals the preference; sections
classified `unknown` match no specific preference. -/
def matchesPreference (pref : TimePref) (c : Course) : Bool :=
  match pref with
  | TimePref.any => true
  | TimePref.morning => classify c == TimeBucket.morning
  | TimePref.afternoon => classify c == TimeBucket.afternoon
  | TimePref.evening => classify c == TimeBucket.evening

/-- Modelled from the spec: the candidate filter applied when the caller
requests a specific time preference. -/
def filterByPreference (pref : TimePref) (l : List Course) : List Course :=
  l.filter (matchesPreference pref)

/-- Modelled from the spec: a concrete section offering of the target term as
loaded by the Data Loader (identifier, course code, category, gen-ed cluster
group, meeting day set and parsed meeting window). -/
structure SectionInfo where
  sectionId : Nat
  courseCode : String
  category : String
  clusterGroup : Option String
  days : List String
  startMin : Option Nat
  endMin : Option Nat
deriving DecidableEq, Repr

/-- Modelled from the spec: the student snapshot the scheduler reads
(completed and in-progress course codes and the completed-semester counter
used by the Template Resolver). -/
structure StudentState where
  completed : List String
  inProgress : List String
  completedSemesters : Nat
deriving DecidableEq, Repr

/-- Modelled from the spec: the catalog snapshot of the target term (offered
sections, prerequisite edges, the program template as an ordered sequence of
main-course-code lists, and gen-ed clusters in declaration order). -/
structure Catalog where
  sections : List SectionInfo
  prereqs : List (String × List String)
  template : List (List String)
  clusters : List (String × List String)
deriving DecidableEq, Repr

/-- Modelled from the spec: the full input of one `generate` run (student
state, catalog state of the target term and the time preference). -/
structure SchedInput where
  student : StudentState
  catalog : Catalog
  pref : TimePref
deriving DecidableEq, Repr

/-- Modelled from the spec: the named heuristic weight table, main slots
scored higher than gen-ed, gen-ed higher than elective. -/
structure ScoreWeights where
  mainScore : Nat
  genEdScore : Nat
  electiveScore : Nat
deriving DecidableEq, Repr

/-- The default weight table. -/
def defaultWeights : ScoreWeights := ⟨3, 2, 1⟩

/-- Modelled from the spec: one row of the produced result set (slot number,
recommended section, course snapshot, heuristic score, preference used). -/
structure RecommendationResult where
  slot : Nat
  sectionId : Nat
  courseCode : String
  score : Nat
  prefUsed : TimePref
deriving DecidableEq, Repr

/-- The prerequisite code list of a course in the catalog. -/
def prereqsOf (cat : Catalog) (code : String) : List String :=
  ((cat.prereqs.find? (fun p => p.1 == code)).map Prod.snd).getD []

/-- Modelled from the spec: `is_eligible(student, course)`: every prerequisite
completed and the course neither completed nor in progress. -/
def isEligible (cat : Catalog) (st : StudentState) (code : String) : Bool :=
  (prereqsOf cat code).all (fun p => st.completed.contains p) &&
    ! st.completed.contains code && ! st.inProgress.contains code

/-- The classifier bucket of a section, from its parsed start minute. -/
def classifySec (s : SectionInfo) : TimeBucket :=
  match s.startMin with
  | none => TimeBucket.unknown
  | some t =>
    if t < 720 then TimeBucket.morning
    else if t ≤ 1020 then TimeBucket.afternoon
    else TimeBucket.evening

/-- Preference match on sections, as `matchesPreference` on courses. -/
def matchesPrefSec (pref : TimePref) (s : SectionInfo) : Bool :=
  match pref with
  | TimePref.any => true
  | TimePref.morning => classifySec s == TimeBucket.morning
  | TimePref.afternoon => classifySec s == TimeBucket.afternoon
  | TimePref.evening => classifySec s == TimeBucket.evening

/-- Modelled from the spec: `overlaps(window_a, window_b)`: the two sections
share a meeting day and their intervals intersect under half-open semantics. -/
def overlapsSec (a b : SectionInfo) : Bool :=
  match a.startMin, a.endMin, b.startMin, b.endMin with
  | some s1, some e1, some s2, some e2 =>
    a.days.any (fun d => b.days.contains d) && decide (¬ (e1 ≤ s2 ∨ e2 ≤ s1))
  | _, _, _, _ => false

/-- The section-id total order used for all candidate tie-breaks. -/
def bySectionId (a b : SectionInfo) : Prop := a.sectionId ≤ b.sectionId

instance : DecidableRel bySectionId := fun a b =>
  inferInstanceAs (Decidable (a.sectionId ≤ b.sectionId))

instance : IsTotal SectionInfo bySectionId where
  total a b := Nat.le_total a.sectionId b.sectionId

instance : IsTrans SectionInfo bySectionId where
  trans _ _ _ := Nat.le_trans

/-- The offered sections of a course code, in section-id order. -/
def sectionsForCode (cat : Catalog) (code : String) : List SectionInfo :=
  List.insertionSort bySectionId (cat.sections.filter (fun s => s.courseCode == code))

/-- Modelled from the spec: choose a section among candidates: drop those that
overlap an already chosen section, prefer the first preference-matching
candidate, else fall back to the first candidate of any time. -/
def pickSection (pref : TimePref) (chosen : List SectionInfo)
    (cands : List SectionInfo) : Option SectionInfo :=
  let ok := cands.filter (fun s => chosen.all (fun c => ! overlapsSec c s))
  match ok.filter (matchesPrefSec pref) with
  | s :: _ => some s
  | [] => ok.head?

/-- Modelled from the spec: the pick for one main-slot course code: skipped
when the course is ineligible, otherwise the best conflict-free section. -/
def pickForCode (inp : SchedInput) (chosen : List SectionInfo)
    (code : String) : Option SectionInfo :=
  if isEligible inp.catalog inp.student code then
    pickSection inp.pref chosen (sectionsForCode inp.catalog code)
  else
    none

/-- Modelled from the spec: the Template Resolver: the main course codes (up
to 3) of the next semester slot set, empty when the student is beyond the
templated terms. -/
def templateCodes (inp : SchedInput) : List String :=
  ((inp.catalog.template[inp.student.completedSemesters]?).getD []).take 3

/-- Modelled from the spec: fill the main slots in template order, checking
each candidate against the sections already chosen in this run. -/
def fillMain (inp : SchedInput) : List (Option SectionInfo) :=
  (templateCodes inp).foldl
    (fun acc code => acc ++ [pickForCode inp (acc.filterMap id) code]) []

/-- Modelled from the spec: `cluster_progress`: completed courses among the
member codes of one cluster group. -/
def clusterProgress (st : StudentState) (members : List String) : Nat :=
  (members.filter (fun m => st.completed.contains m)).length

/-- The eligible offered sections of the member codes of a cluster, in member
order then section-id order. -/
def clusterCands (inp : SchedInput) (members : List String) : List SectionInfo :=
  members.foldr
    (fun code acc =>
      (if isEligible inp.catalog inp.student code then
        sectionsForCode inp.catalog code
      else []) ++ acc)
    []

/-- Modelled from the spec: `least_satisfied_open_cluster()`: among clusters
with fewer than 3 completions and at least one eligible offered candidate,
the one with the smallest completed count, ties broken by declaration order. -/
def leastSatisfiedOpenCluster (inp : SchedInput) :
    Option (String × List String) :=
  let opens := inp.catalog.clusters.filter
    (fun c => clusterProgress inp.student c.2 < 3 && ! (clusterCands inp c.2).isEmpty)
  opens.foldl
    (fun best c =>
      match best with
      | none => some c
      | some b =>
        if clusterProgress inp.student c.2 < clusterProgress inp.student b.2 then some c
        else best)
    none

/-- Modelled from the spec: the slot-4 gen-ed pick from the least satisfied
open cluster. -/
def genEdPick (inp : SchedInput) (chosen : List SectionInfo) :
    Option SectionInfo :=
  match leastSatisfiedOpenCluster inp with
  | none => none
  | some c => pickSection inp.pref chosen (clusterCands inp c.2)

/-- Modelled from the spec: the slot-5 pick: the first eligible, offered,
non-conflicting Foundation or Elective course not already recommended. -/
def electivePick (inp : SchedInput) (chosen : List SectionInfo)
    (already : List String) : Option SectionInfo :=
  let cands := (List.insertionSort bySectionId inp.catalog.sections).filter
    (fun s =>
      (s.category == "Foundation" || s.category == "Elective") &&
      isEligible inp.catalog inp.student s.courseCode &&
      ! already.contains s.courseCode)
  pickSection inp.pref chosen cands

/-- Modelled from the spec: the five slot picks of one run with their
heuristic scores: up to three main slots, the gen-ed slot and the elective
slot, each later pick checked against all earlier picks. -/
def fillSlots (inp : SchedInput) : List (Option (SectionInfo × Nat)) :=
  let mains := fillMain inp
  let chosen1 := mains.filterMap id
  let g := genEdPick inp chosen1
  let chosen2 := chosen1 ++ g.toList
  let e := electivePick inp chosen2 (chosen2.map SectionInfo.courseCode)
  mains.map (fun o => o.map (fun s => (s, defaultWeights.mainScore))) ++
    [g.map (fun s => (s, defaultWeights.genEdScore)),
     e.map (fun s => (s, defaultWeights.electiveScore))]

/-- Number a list consecutively starting from `n`. -/
def numberFrom (n : Nat) : List α → List (Nat × α)
  | [] => []
  | x :: xs => (n, x) :: numberFrom (n + 1) xs

/-- Modelled from the spec: `generate(student_id, time_preference,
target_semester, target_year)` over the loaded snapshot: fill the five slots,
drop the unfilled ones and number the produced results consecutively from 1
(the invariant section requires 0 to 5 results numbered 1 up with no gaps). -/
def generate (inp : SchedInput) : List RecommendationResult :=
  let filled := (fillSlots inp).filterMap id
  (numberFrom 1 filled).map
    (fun p =>
      { slot := p.1
        sectionId := p.2.1.sectionId
        courseCode := p.2.1.courseCode
        score := p.2.2
        prefUsed := inp.pref })

/-- The pairwise invariant of the draft-schedule selection state: no two
distinct selected catalog rows conflict. -/
def ConflictFree (courses : List CatCourse) (selected : List String) : Prop :=
  ∀ a ∈ selectedCourseList courses selected,
    ∀ b ∈ selectedCourseList courses selected,
      a.id ≠ b.id → checkTimeConflict a.toCourse b.toCourse = false

/-- A concrete scheduler input used to witness determinism. -/
def sampleInput : SchedInput :=
  { student := { completed := ["CS100"], inProgress := [], completedSemesters := 1 }
    catalog :=
      { sections :=
          [⟨1, "CS101", "Core", none, ["Monday"], some 540, some 600⟩,
           ⟨2, "CS102", "Core", none, ["Monday"], some 540, some 600⟩,
           ⟨3, "GE1", "GenEd", some "A", ["Monday"], some 700, some 760⟩]
        prereqs := [("CS101", ["CS100"]), ("CS102", [])]
        template := [["CS100"], ["CS101", "CS102"]]
        clusters := [("A", ["GE1"])] }
    pref := TimePref.any }

/-! Helper lemmas shared across the claims. -/

theorem contains_true_iff_mem {α : Type} [BEq α] [LawfulBEq α] (l : List α)
    (a : α) : l.contains a = true ↔ a ∈ l := by
  simp

theorem hasCommonDay_comm (d1 d2 : List Char) :
    hasCommonDay d1 d2 = hasCommonDay d2 d1 := by
  unfold hasCommonDay
  rw [Bool.eq_iff_iff]
  simp only [List.any_eq_true, contains_true_iff_mem]
  exact ⟨fun ⟨x, h1, h2⟩ => ⟨x, h2, h1⟩, fun ⟨x, h1, h2⟩ => ⟨x, h2, h1⟩⟩

theorem conflictTimes_comm (p q : Option Nat × Option Nat) :
    conflictTimes p q = conflictTimes q p := by
  unfold conflictTimes
  rw [show (numFalsy p.1 || numFalsy p.2 || numFalsy q.1 || numFalsy q.2)
        = (numFalsy q.1 || numFalsy q.2 || numFalsy p.1 || numFalsy p.2) from by
    cases numFalsy p.1 <;> cases numFalsy p.2 <;> cases numFalsy q.1 <;>
      cases numFalsy q.2 <;> rfl]
  rw [show decide (¬ (p.2.getD 0 ≤ q.1.getD 0 ∨ q.2.getD 0 ≤ p.1.getD 0))
        = decide (¬ (q.2.getD 0 ≤ p.1.getD 0 ∨ p.2.getD 0 ≤ q.1.getD 0)) from by
    rw [decide_eq_decide]; tauto]

theorem checkTimeConflict_comm (c1 c2 : Course) :
    checkTimeConflict c1 c2 = checkTimeConflict c2 c1 := by
  unfold checkTimeConflict
  rw [show (strFalsy c1.days || strFalsy c2.days || strFalsy c1.time || strFalsy c2.time)
        = (strFalsy c2.days || strFalsy c1.days || strFalsy c2.time || strFalsy c1.time) from by
    cases strFalsy c1.days <;> cases strFalsy c2.days <;> cases strFalsy c1.time <;>
      cases strFalsy c2.time <;> rfl]
  rw [hasCommonDay_comm, conflictTimes_comm]

/-! Claims. -/

/-- C3: for every non-negative credit total, the standing calculator returns
Freshman below 30, Sophomore on [30, 60), Junior on [60, 90) and Senior from
90 on; in particular exactly 30 credits is Sophomore and exactly 90 Senior. -/
theorem C3_standing_thresholds (c : ℚ) (h : 0 ≤ c) :
    (c < 30 → getStudentStanding (some c) = "Freshman") ∧
    (30 ≤ c → c < 60 → getStudentStanding (some c) = "Sophomore") ∧
    (60 ≤ c → c < 90 → getStudentStanding (some c) = "Junior") ∧
    (90 ≤ c → getStudentStanding (some c) = "Senior") ∧
    getStudentStanding (some 30) = "Sophomore" ∧
    getStudentStanding (some 90) = "Senior" := by
  have e : ∀ x : ℚ, getStudentStanding (some x) =
      (if x < 30 then "Freshman" else if x < 60 then "Sophomore"
       else if x < 90 then "Junior" else "Senior") := fun x => rfl
  refine ⟨fun h1 => ?_, fun h1 h2 => ?_, fun h1 h2 => ?_, fun h1 => ?_, ?_, ?_⟩ <;>
    rw [e]
  · rw [if_pos h1]
  · rw [if_neg (by linarith), if_pos h2]
  · rw [if_neg (by linarith), if_neg (by linarith), if_pos h2]
  · rw [if_neg (by linarith), if_neg (by linarith), if_neg (by linarith)]
  · norm_num
  · norm_num

/-- Witness for C3 at 30 credits. -/
theorem C3_witness :
    (0 : ℚ) ≤ 30 ∧ getStudentStanding (some 30) = "Sophomore" :=
  ⟨by norm_num,
    (C3_standing_thresholds 30 (by norm_num)).2.1 (by norm_num) (by norm_num)⟩

/-- C4 counterexample: for a missing credit total the source returns the
string N/A, not Freshman. -/
theorem C4_counterexample :
    getStudentStanding none = "N/A" ∧ getStudentStanding none ≠ "Freshman" := by
  constructor
  · rfl
  · intro h
    exact absurd h (by decide)

/-- C4 (amended): when the credit total is undefined or missing the standing
calculator returns the sentinel string N/A (it does not fail, and it does not
treat the missing value as 0 credits). -/
theorem C4_missing_credit : getStudentStanding none = "N/A" := rfl

/-- C8: the conflict check is commutative for every pair of courses,
including courses with missing or malformed days or time fields. -/
theorem C8_conflict_commutative (a b : Course) :
    checkTimeConflict a b = checkTimeConflict b a :=
  checkTimeConflict_comm a b

/-- C9: the conflict check is total and treats every degenerate pair as
conflict-free: it returns false whenever a days or time field is missing,
whenever a parsed endpoint is missing (no two-digit HH:MM pattern in the
corresponding chunk), and whenever a parsed endpoint equals 0 minutes. -/
theorem C9_bad_input_conflict_free (c1 c2 : Course) :
    (checkTimeConflict c1 c2 = true ∨ checkTimeConflict c1 c2 = false) ∧
    ((c1.days = none ∨ c1.time = none ∨ c2.days = none ∨ c2.time = none) →
      checkTimeConflict c1 c2 = false) ∧
    (∀ s1 e1 s2 e2 : Option Nat,
      courseEndpoints (c1.time.getD "").toList = (s1, e1) →
      courseEndpoints (c2.time.getD "").toList = (s2, e2) →
      (numFalsy s1 || numFalsy e1 || numFalsy s2 || numFalsy e2) = true →
      checkTimeConflict c1 c2 = false) := by
  refine ⟨?_, ?_, ?_⟩
  · cases checkTimeConflict c1 c2
    · exact Or.inr rfl
    · exact Or.inl rfl
  · intro h
    rcases h with h | h | h | h <;> simp [checkTimeConflict, h, strFalsy]
  · intro s1 e1 s2 e2 h1 h2 hf
    unfold checkTimeConflict
    split
    · rfl
    · split
      · rfl
      · rw [h1, h2]
        unfold conflictTimes
        rw [if_pos hf]

/-- Witness for C9: a pair with a parsed 00:00 endpoint is conflict-free. -/
theorem C9_witness :
    checkTimeConflict ⟨some "Tuesday", some "00:00-09:00"⟩
      ⟨some "Tuesday", some "08:00-10:00"⟩ = false :=
  (C9_bad_input_conflict_free ⟨some "Tuesday", some "00:00-09:00"⟩
    ⟨some "Tuesday", some "08:00-10:00"⟩).2.2
    (some 0) (some 540) (some 480) (some 600) (by decide) (by decide) (by decide)

/-- C10: deleting a schedule only removes the entries carrying the deleted
identifier: the result is a sublist of the stored list (order and contents of
the other schedules preserved), every schedule with a different identifier is
kept, no schedule with the deleted identifier survives, and reading the store
back never returns the deleted identifier. -/
theorem C10_delete_frame (scheduleId : String) (stored : List SavedSchedule) :
    List.Sublist (deleteSchedule scheduleId stored) stored ∧
    (∀ s ∈ stored, s.id ≠ scheduleId → s ∈ deleteSchedule scheduleId stored) ∧
    (∀ s ∈ deleteSchedule scheduleId stored, s.id ≠ scheduleId) ∧
    (∀ s ∈ getSavedSchedules (deleteSchedule scheduleId stored),
      s.id ≠ scheduleId) := by
  refine ⟨List.filter_sublist _, ?_, ?_, ?_⟩
  · intro s hs hne
    simp only [deleteSchedule, getSavedSchedules, List.mem_filter]
    exact ⟨hs, by simpa using hne⟩
  · intro s hs
    simp only [deleteSchedule, getSavedSchedules, List.mem_filter] at hs
    simpa using hs.2
  · intro s hs
    simp only [deleteSchedule, getSavedSchedules, List.mem_filter] at hs
    simpa using hs.2

/-- Witness for C10: the schedule with the other identifier survives. -/
theorem C10_witness :
    (⟨"b", "Schedule 2", [], "t"⟩ : SavedSchedule) ∈
      deleteSchedule "a"
        [⟨"a", "Schedule 1", [], "t"⟩, ⟨"b", "Schedule 2", [], "t"⟩] :=
  (C10_delete_frame "a"
      [⟨"a", "Schedule 1", [], "t"⟩, ⟨"b", "Schedule 2", [], "t"⟩]).2.1
    ⟨"b", "Schedule 2", [], "t"⟩ (by decide) (by decide)

theorem numberFrom_length {α : Type} (l : List α) :
    ∀ n, (numberFrom n l).length = l.length := by
  induction l with
  | nil => intro n; rfl
  | cons x xs ih => intro n; simp [numberFrom, ih]

theorem numberFrom_map_fst {α : Type} (l : List α) :
    ∀ n, (numberFrom n l).map Prod.fst = List.range' n l.length := by
  induction l with
  | nil => intro n; rfl
  | cons x xs ih =>
    intro n
    simp only [numberFrom, List.map_cons, List.length_cons, ih]
    rw [List.range'_succ n xs.length 1]

theorem foldl_append_singleton_length {α β : Type} (f : List β → α → β)
    (l : List α) :
    ∀ init : List β,
      (l.foldl (fun acc c => acc ++ [f acc c]) init).length =
        init.length + l.length := by
  induction l with
  | nil => intro init; simp
  | cons x xs ih =>
    intro init
    rw [List.foldl_cons, ih]
    simp only [List.length_append, List.length_cons, List.length_nil]
    omega

theorem fillMain_length (inp : SchedInput) :
    (fillMain inp).length = (templateCodes inp).length := by
  unfold fillMain
  rw [foldl_append_singleton_length]
  simp

theorem fillSlots_length (inp : SchedInput) :
    (fillSlots inp).length = (templateCodes inp).length + 2 := by
  unfold fillSlots
  simp [fillMain_length]

/-- C5: every run produces between 0 and 5 recommendation results, and their
slot numbers are consecutive starting at 1 with no gaps. -/
theorem C5_result_count_and_numbering (inp : SchedInput) :
    (generate inp).length ≤ 5 ∧
    (generate inp).map RecommendationResult.slot =
      List.range' 1 (generate inp).length := by
  constructor
  · have h1 : (generate inp).length = ((fillSlots inp).filterMap id).length := by
      unfold generate
      rw [List.length_map, numberFrom_length]
    have h2 : ((fillSlots inp).filterMap id).length ≤ (fillSlots inp).length :=
      List.length_filterMap_le _ _
    have h3 : (templateCodes inp).length ≤ 3 := by
      unfold templateCodes
      exact le_trans (List.length_take_le _ _) (le_refl 3)
    rw [h1]
    rw [fillSlots_length] at h2
    omega
  · unfold generate
    rw [List.map_map, List.length_map, numberFrom_length]
    exact numberFrom_map_fst _ 1

/-- C6: the recommendation run is deterministic: two `generate` invocations
with identical inputs (student state, catalog state, time preference) yield
identical result sets, and in particular identical slot assignments. -/
theorem C6_generate_deterministic (inp1 inp2 : SchedInput) (h : inp1 = inp2) :
    generate inp1 = generate inp2 ∧
    (generate inp1).map RecommendationResult.slot =
      (generate inp2).map RecommendationResult.slot := by
  subst h
  exact ⟨rfl, rfl⟩

/-- Witness for C6 at a concrete input. -/
theorem C6_witness :
    generate sampleInput = generate sampleInput ∧
    (generate sampleInput).map RecommendationResult.slot = [1, 2] :=
  ⟨(C6_generate_deterministic sampleInput sampleInput rfl).1, by decide⟩

theorem courseEndpoints_nil : courseEndpoints [] = (none, none) := rfl

/-- C1 counterexample: both sections meet on Monday, both time fields parse
as HH:MM-HH:MM ranges (00:00-01:00 and 00:30-02:00), the day sets share a day
and the half-open intervals [0, 60) and [30, 120) intersect, yet the conflict
check returns false, because the falsy guard of the source conflates the
parsed 00:00 start (0 minutes) with a parse failure. -/
theorem C1_counterexample :
    hasCommonDay "Monday".toList "Monday".toList = true ∧
    courseEndpoints "00:00-01:00".toList = (some 0, some 60) ∧
    courseEndpoints "00:30-02:00".toList = (some 30, some 120) ∧
    ¬ ((60 : Nat) ≤ 30 ∨ (120 : Nat) ≤ 0) ∧
    checkTimeConflict ⟨some "Monday", some "00:00-01:00"⟩
      ⟨some "Monday", some "00:30-02:00"⟩ = false := by
  refine ⟨by decide, by decide, by decide, by decide, by decide⟩

/-- C1 (amended): for every pair of sections whose day sets are present and
whose meeting times parse as HH:MM-HH:MM ranges with no endpoint equal to
00:00 (0 minutes), the conflict check returns true exactly when the two
sections share at least one meeting day and their time intervals intersect
under half-open semantics. -/
theorem C1_conflict_iff (d1 d2 t1 t2 : String) (s1 e1 s2 e2 : Nat)
    (hd1 : d1.toList ≠ []) (hd2 : d2.toList ≠ [])
    (h1 : courseEndpoints t1.toList = (some s1, some e1))
    (h2 : courseEndpoints t2.toList = (some s2, some e2))
    (hs1 : s1 ≠ 0) (he1 : e1 ≠ 0) (hs2 : s2 ≠ 0) (he2 : e2 ≠ 0) :
    checkTimeConflict ⟨some d1, some t1⟩ ⟨some d2, some t2⟩ = true ↔
      (hasCommonDay d1.toList d2.toList = true ∧ ¬ (e1 ≤ s2 ∨ e2 ≤ s1)) := by
  have hde1 : d1.toList.isEmpty = false := by
    cases hl : d1.toList with
    | nil => exact absurd hl hd1
    | cons a l => rfl
  have hde2 : d2.toList.isEmpty = false := by
    cases hl : d2.toList with
    | nil => exact absurd hl hd2
    | cons a l => rfl
  have hte1 : t1.toList.isEmpty = false := by
    cases hl : t1.toList with
    | nil => rw [hl, courseEndpoints_nil] at h1; exact absurd h1 (by simp)
    | cons a l => rfl
  have hte2 : t2.toList.isEmpty = false := by
    cases hl : t2.toList with
    | nil => rw [hl, courseEndpoints_nil] at h2; exact absurd h2 (by simp)
    | cons a l => rfl
  rw [show checkTimeConflict ⟨some d1, some t1⟩ ⟨some d2, some t2⟩ =
      (if strFalsy (some d1) || strFalsy (some d2) || strFalsy (some t1) ||
          strFalsy (some t2) then false
       else if ! hasCommonDay d1.toList d2.toList then false
       else conflictTimes (courseEndpoints t1.toList)
         (courseEndpoints t2.toList)) from rfl]
  rw [show strFalsy (some d1) = false from hde1,
    show strFalsy (some d2) = false from hde2,
    show strFalsy (some t1) = false from hte1,
    show strFalsy (some t2) = false from hte2]
  rw [if_neg (by simp)]
  cases hcd : hasCommonDay d1.toList d2.toList with
  | false =>
    simp
  | true =>
    rw [if_neg (by simp)]
    rw [h1, h2]
    rw [show conflictTimes (some s1, some e1) (some s2, some e2) =
        (if (s1 == 0) || (e1 == 0) || (s2 == 0) || (e2 == 0) then false
         else decide (¬ (e1 ≤ s2 ∨ e2 ≤ s1))) from rfl]
    rw [if_neg (by simp [hs1, he1, hs2, he2])]
    constructor
    · intro hd
      exact ⟨rfl, of_decide_eq_true hd⟩
    · intro hd
      exact decide_eq_true hd.2

/-- Witness for C1 at a genuinely conflicting pair. -/
theorem C1_witness :
    checkTimeConflict ⟨some "Monday", some "10:00-11:00"⟩
      ⟨some "Monday", some "10:30-11:30"⟩ = true :=
  (C1_conflict_iff "Monday" "Monday" "10:00-11:00" "10:30-11:30"
      600 660 630 690 (by decide) (by decide) (by decide) (by decide)
      (by decide) (by decide) (by decide) (by decide)).mpr
    ⟨by decide, by decide⟩

theorem timeKeyLE_none_left (b : Option Int) (h : timeKeyLE none b = true) :
    b = none := by
  cases b with
  | none => rfl
  | some y => exact absurd h (by simp [timeKeyLE])

/-- C7: time classification of missing or unparseable meeting times: a
missing or empty time string parses to the distinguished unknown value; a
course classifies `unknown` exactly when its time fails to parse; under any
specific (non-any) preference an unknown course matches the preference filter
negatively and is excluded from every filtered candidate list; and in both
sorted groups produced by `groupCoursesByDays`, every course behind an
unknown-time course also has an unknown time, so unknown-time courses order
after every course with a parseable time. -/
theorem C7_unknown_time_handling :
    (parseCourseTime none = none ∧ parseCourseTime (some "") = none) ∧
    (∀ c : Course, classify c = TimeBucket.unknown ↔ parseCourseTime c.time = none) ∧
    (∀ pref : TimePref, pref ≠ TimePref.any → ∀ c : Course,
      classify c = TimeBucket.unknown →
      matchesPreference pref c = false ∧
        ∀ l : List Course, c ∉ filterByPreference pref l) ∧
    (∀ courses : List Course,
      (∀ i j : Fin (groupCoursesByDays courses).1.length, i < j →
        parseCourseTime ((groupCoursesByDays courses).1.get i).time = none →
        parseCourseTime ((groupCoursesByDays courses).1.get j).time = none) ∧
      (∀ i j : Fin (groupCoursesByDays courses).2.length, i < j →
        parseCourseTime ((groupCoursesByDays courses).2.get i).time = none →
        parseCourseTime ((groupCoursesByDays courses).2.get j).time = none)) := by
  refine ⟨⟨rfl, rfl⟩, ?_, ?_, ?_⟩
  · intro c
    cases hp : parseCourseTime c.time with
    | none => simp [classify, hp]
    | some t =>
      have hcl : classify c = (if t < 720 then TimeBucket.morning
          else if t ≤ 1020 then TimeBucket.afternoon
          else TimeBucket.evening) := by
        simp [classify, hp]
      rw [hcl]
      constructor
      · intro h
        split at h
        · simp_all
        · split at h <;> simp_all
      · intro h
        exact absurd h (by simp)
  · intro pref hpref c hc
    have hm : matchesPreference pref c = false := by
      cases pref with
      | any => exact absurd rfl hpref
      | morning => simp [matchesPreference, hc]
      | afternoon => simp [matchesPreference, hc]
      | evening => simp [matchesPreference, hc]
    refine ⟨hm, ?_⟩
    intro l hl
    rw [filterByPreference, List.mem_filter] at hl
    rw [hm] at hl
    exact absurd hl.2 (by simp)
  · intro courses
    constructor
    · intro i j hij hi
      have hs : ((groupCoursesByDays courses).1).Sorted byCourseTime :=
        List.sorted_insertionSort byCourseTime _
      have hr := hs.rel_get_of_lt hij
      unfold byCourseTime at hr
      rw [hi] at hr
      exact timeKeyLE_none_left _ hr
    · intro i j hij hi
      have hs : ((groupCoursesByDays courses).2).Sorted byCourseTime :=
        List.sorted_insertionSort byCourseTime _
      have hr := hs.rel_get_of_lt hij
      unfold byCourseTime at hr
      rw [hi] at hr
      exact timeKeyLE_none_left _ hr

/-- Witness for C7: a section with an unparseable time never passes a
specific-preference filter. -/
theorem C7_witness :
    matchesPreference TimePref.morning ⟨some "Monday", some "TBD"⟩ = false ∧
    (⟨some "Monday", some "TBD"⟩ : Course) ∉
      filterByPreference TimePref.morning
        [⟨some "Monday", some "TBD"⟩, ⟨some "Monday", some "09:00-10:00"⟩] := by
  have h := C7_unknown_time_handling.2.2.1 TimePref.morning (by decide)
    ⟨some "Monday", some "TBD"⟩ (by decide)
  exact ⟨h.1, h.2 _⟩

theorem mem_selectedCourseList {courses : List CatCourse} {sel : List String}
    {a : CatCourse} :
    a ∈ selectedCourseList courses sel ↔
      a ∈ courses ∧ sel.contains a.id = true := by
  unfold selectedCourseList
  rw [List.mem_filter]

theorem conflictFree_nil (courses : List CatCourse) : ConflictFree courses [] := by
  intro a ha
  rw [mem_selectedCourseList] at ha
  simp at ha

theorem contains_erase_subset {l : List String} {x y : String}
    (h : (l.erase y).contains x = true) : l.contains x = true := by
  rw [contains_true_iff_mem] at h ⊢
  exact List.mem_of_mem_erase h

theorem handleCourseSelect_preserves (courses : List CatCourse)
    (hnd : (courses.map CatCourse.id).Nodup) (sel : List String)
    (hCF : ConflictFree courses sel) (cid : String) :
    ConflictFree courses (handleCourseSelect courses sel cid) := by
  cases hf : courses.find? (fun c => c.id == cid) with
  | none =>
    simp only [handleCourseSelect, hf]
    exact hCF
  | some course =>
    simp only [handleCourseSelect, hf]
    by_cases hsel : sel.contains cid = true
    · rw [if_pos hsel]
      intro a ha b hb hab
      rw [mem_selectedCourseList] at ha hb
      exact hCF a (mem_selectedCourseList.mpr ⟨ha.1, contains_erase_subset ha.2⟩)
        b (mem_selectedCourseList.mpr ⟨hb.1, contains_erase_subset hb.2⟩) hab
    · rw [if_neg hsel]
      cases hconf : (selectedCourseList courses sel).any
          (fun sc => checkTimeConflict course.toCourse sc.toCourse) with
      | true =>
        rw [if_pos rfl]
        exact hCF
      | false =>
        rw [if_neg (by simp)]
        have hcid : course.id = cid := by simpa using List.find?_some hf
        have hcmem : course ∈ courses := List.mem_of_find?_eq_some hf
        have hsplit : ∀ x : CatCourse, x ∈ courses →
            (sel ++ [cid]).contains x.id = true →
            sel.contains x.id = true ∨ x = course := by
          intro x hxc hx
          rw [contains_true_iff_mem, List.mem_append] at hx
          cases hx with
          | inl h => exact Or.inl (contains_true_iff_mem _ _ |>.mpr h)
          | inr h =>
            have hxid : x.id = cid := by simpa using h
            exact Or.inr
              (List.inj_on_of_nodup_map hnd hxc hcmem (by rw [hxid, hcid]))
        have hnoc : ∀ sc ∈ selectedCourseList courses sel,
            checkTimeConflict course.toCourse sc.toCourse = false := by
          rw [List.any_eq_false] at hconf
          intro sc hsc
          simpa using hconf sc hsc
        intro a ha b hb hab
        rw [mem_selectedCourseList] at ha hb
        rcases hsplit a ha.1 ha.2 with haold | haeq <;>
          rcases hsplit b hb.1 hb.2 with hbold | hbeq
        · exact hCF a (mem_selectedCourseList.mpr ⟨ha.1, haold⟩)
            b (mem_selectedCourseList.mpr ⟨hb.1, hbold⟩) hab
        · subst hbeq
          rw [checkTimeConflict_comm]
          exact hnoc a (mem_selectedCourseList.mpr ⟨ha.1, haold⟩)
        · subst haeq
          exact hnoc b (mem_selectedCourseList.mpr ⟨hb.1, hbold⟩)
        · subst haeq
          subst hbeq
          exact absurd rfl hab

theorem selection_foldl_conflictFree (courses : List CatCourse)
    (hnd : (courses.map CatCourse.id).Nodup) (ops : List String) :
    ∀ sel, ConflictFree courses sel →
      ConflictFree courses (ops.foldl (handleCourseSelect courses) sel) := by
  induction ops with
  | nil => intro sel h; exact h
  | cons o os ih =>
    intro sel h
    exact ih _ (handleCourseSelect_preserves courses hnd sel h o)

/-- C2: starting from the empty selection, after any sequence of
select/deselect operations the selected set is pairwise conflict-free (for a
catalog whose course identifiers are distinct); moreover a candidate that
conflicts with any already-selected course is rejected and the selection
state is left unchanged. -/
theorem C2_selection_conflict_free (courses : List CatCourse)
    (hnd : (courses.map CatCourse.id).Nodup) :
    (∀ ops : List String,
      ConflictFree courses (ops.foldl (handleCourseSelect courses) [])) ∧
    (∀ (sel : List String) (cid : String) (course : CatCourse),
      courses.find? (fun c => c.id == cid) = some course →
      sel.contains cid = false →
      (selectedCourseList courses sel).any
        (fun sc => checkTimeConflict course.toCourse sc.toCourse) = true →
      handleCourseSelect courses sel cid = sel) := by
  constructor
  · intro ops
    exact selection_foldl_conflictFree courses hnd ops [] (conflictFree_nil courses)
  · intro sel cid course hf hnc hconf
    simp only [handleCourseSelect, hf]
    rw [if_neg (by rw [hnc]; simp)]
    rw [if_pos hconf]

/-- Witness for C2: with two Monday courses whose times overlap, selecting
the second while the first is selected is rejected. -/
theorem C2_witness :
    handleCourseSelect
      [⟨"1", "Monday", "10:00-11:00"⟩, ⟨"2", "Monday", "10:30-11:30"⟩]
      ["1"] "2" = ["1"] :=
  (C2_selection_conflict_free
      [⟨"1", "Monday", "10:00-11:00"⟩, ⟨"2", "Monday", "10:30-11:30"⟩]
      (by decide)).2
    ["1"] "2" ⟨"2", "Monday", "10:30-11:30"⟩ (by decide) (by decide) (by decide)

end UniApp
